import Mathlib

/-!
Verification of the window fingerprint tracking engine of MYexplorer.

The C++ sources are shallowly embedded:
  * wide strings (`std::wstring`) are lists of character codes (`List Nat`);
    `towlower` is modelled on the ASCII range, which is the range exercised here;
  * the operating system is an explicit `World`: the list of current top-level
    windows in z-order (handle paired with its data) plus a tick counter;
    a window handle (`HWND`) is a `Nat`, with `0` for the null handle;
  * `std::map<std::wstring, TrackedWindow>` is an association list with unique
    keys (`mapFind` / `mapInsert` model `find` and `operator[]` assignment);
  * the persisted tracking file is a list of lines, one `List Nat` per line;
  * `LaunchFile`'s poll loop takes the world as a function of the milliseconds
    elapsed since launch, so the sleep/poll timing is explicit.
-/

namespace MYexplorer

/-- ASCII model of `towlower`: map the codes of A..Z to a..z. -/
def towlowerN (c : Nat) : Nat :=
  if 65 ≤ c ∧ c ≤ 90 then c + 32 else c

/-- Lower-case a wide string (the per-character `towlower` loops in the code). -/
def lowerStr (s : List Nat) : List Nat := s.map towlowerN

/-- Model of `std::wstring::find(needle) != npos`: the needle occurs as a contiguous
    infix of the haystack (an empty needle is found at position 0). -/
def containsSub (hay needle : List Nat) : Bool := decide (needle <:+: hay)

/-- Model of `RECT`: the four integer edges of a window rectangle. -/
structure Rect where
  left : Int
  top : Int
  right : Int
  bottom : Int
deriving DecidableEq, Repr

/-- Model of `TrackedWindow` (MainWindow.h): one fingerprint record. -/
structure TrackedWindow where
  processId : Nat
  hwnd : Nat
  rect : Rect
  className : List Nat
  windowTitle : List Nat
  failCount : Int
  launchTime : Nat
deriving DecidableEq, Repr

/-- Data of one live top-level window, as the OS reports it. -/
structure WinData where
  pid : Nat
  title : List Nat
  rect : Rect
  className : List Nat
  visible : Bool
deriving DecidableEq, Repr

/-- The OS state: current top-level windows in z-order (handle, data) and the
    current tick count (`GetTickCount64`). -/
structure World where
  windows : List (Nat × WinData)
  tick : Nat
deriving Repr

/-- A well-formed world never lists the null handle. -/
def WorldWF (w : World) : Prop := ∀ e ∈ w.windows, e.1 ≠ 0

/-- Association-list lookup on the window list (first entry with the handle). -/
def winLookup : List (Nat × WinData) → Nat → Option WinData
  | [], _ => none
  | (h, d) :: rest, key => if h = key then some d else winLookup rest key

/-- Model of `IsWindow`: the handle is non-null and currently names a live window. -/
def IsWindow (w : World) (h : Nat) : Bool :=
  h ≠ 0 && (winLookup w.windows h).isSome

/-- Model of `GetFingerprint` (FingerprintUtils.cpp): capture pid, handle, rectangle,
    class name and title of the window, zero the failure counter and stamp the
    tick count.  On a dead handle the OS queries degrade to zero/empty data. -/
def GetFingerprint (w : World) (h : Nat) : TrackedWindow :=
  match winLookup w.windows h with
  | some d =>
      { processId := d.pid, hwnd := h, rect := d.rect, className := d.className,
        windowTitle := d.title, failCount := 0, launchTime := w.tick }
  | none =>
      { processId := 0, hwnd := h, rect := ⟨0, 0, 0, 0⟩, className := [],
        windowTitle := [], failCount := 0, launchTime := w.tick }

/-- Model of `CompareFingerprints` (FingerprintUtils.cpp): early-out on process id,
    class name and the four rectangle edges, then compare the two titles after
    lower-casing both. -/
def CompareFingerprints (twStored twCurrent : TrackedWindow) : Bool :=
  if twStored.processId ≠ twCurrent.processId then false
  else if twStored.className ≠ twCurrent.className then false
  else if twStored.rect.left ≠ twCurrent.rect.left ∨
          twStored.rect.top ≠ twCurrent.rect.top ∨
          twStored.rect.right ≠ twCurrent.rect.right ∨
          twStored.rect.bottom ≠ twCurrent.rect.bottom then false
  else decide (lowerStr twStored.windowTitle = lowerStr twCurrent.windowTitle)

/-- Model of `CompareStableAttributes` (FingerprintUtils.cpp): process id and class
    name only. -/
def CompareStableAttributes (stored current : TrackedWindow) : Bool :=
  decide (stored.processId = current.processId) &&
  decide (stored.className = current.className)

/-- Model of `StripLnkExtension` (WindowUtils.h): drop a trailing `.lnk` (codes of
    '.', 'l', 'n', 'k') when the string is long enough and ends in it. -/
def StripLnkExtension (fileLower : List Nat) : List Nat :=
  let lnkExt : List Nat := [46, 108, 110, 107]
  if fileLower.length ≥ lnkExt.length then
    if fileLower.drop (fileLower.length - lnkExt.length) = lnkExt then
      fileLower.take (fileLower.length - lnkExt.length)
    else fileLower
  else fileLower

/-- Body of `EnumProcFile` (WindowUtils.cpp) for one window: a window with a
    non-empty title matches when its lower-cased title contains the
    lower-cased, `.lnk`-stripped file name, which must be non-empty. -/
def fileMatchesTitle (fileName title : List Nat) : Bool :=
  if title.length > 0 then
    let titleLower := lowerStr title
    let fileLower := StripLnkExtension (lowerStr fileName)
    !fileLower.isEmpty && containsSub titleLower fileLower
  else false

/-- Model of `GetWindowHandleByFileName` (WindowUtils.cpp): first window in z-order
    matching `fileMatchesTitle`, else the null handle. -/
def GetWindowHandleByFileName (w : World) (fileName : List Nat) : Nat :=
  match w.windows.find? (fun e => fileMatchesTitle fileName e.2.title) with
  | some e => e.1
  | none => 0

/-- Model of `GetMainWindowHandle` (WindowUtils.cpp): first visible window in z-order
    owned by the process, else the null handle. -/
def GetMainWindowHandle (w : World) (processID : Nat) : Nat :=
  match w.windows.find? (fun e => decide (e.2.pid = processID) && e.2.visible) with
  | some e => e.1
  | none => 0

/-- Model of `std::map<std::wstring, TrackedWindow>`: association list, unique keys. -/
abbrev TrackMap := List (List Nat × TrackedWindow)

/-- Lookup `m.find(key)` on the tracking map. -/
def mapFind : TrackMap → List Nat → Option TrackedWindow
  | [], _ => none
  | (k, v) :: rest, key => if k = key then some v else mapFind rest key

/-- Assignment `m[key] = v`: overwrite in place when the key exists, else append. -/
def mapInsert : TrackMap → List Nat → TrackedWindow → TrackMap
  | [], key, v => [(key, v)]
  | (k, v') :: rest, key, v =>
      if k = key then (key, v) :: rest else (k, v') :: mapInsert rest key v

/-! ## LaunchFile (FileUtils.cpp) -/

/-- Environment of one `LaunchFile` call: whether `ShellExecuteExW` succeeds,
    the launched process id, and the OS world as a function of the
    milliseconds elapsed since the launch (the poll loop sleeps in 250 ms
    increments, so lookups happen at elapsed = 0, 250, 500, 750). -/
structure LaunchEnv where
  launchOk : Bool
  pid : Nat
  wt : Nat → World

/-- The `while (elapsed < maxPollTime)` poll loop of `LaunchFile`:
    look up the process's main window, break when found, otherwise sleep
    250 ms and retry.  Returns the handle found (0 when none) together with
    the elapsed time at which the loop left off. -/
def pollLoop (env : LaunchEnv) (elapsed : Nat) : Nat × Nat :=
  if elapsed < 1000 then
    let hwndLaunched := GetMainWindowHandle (env.wt elapsed) env.pid
    if hwndLaunched ≠ 0 then (hwndLaunched, elapsed)
    else pollLoop env (elapsed + 250)
  else (0, elapsed)
termination_by 1000 - elapsed
decreasing_by omega

/-- Model of `LaunchFile` (FileUtils.cpp): on shell-open success, poll for the new
    process's main visible window and, when found, record its fingerprint
    under the file path; on failure, show an error box (the returned flag)
    and leave the map untouched. -/
def LaunchFile (env : LaunchEnv) (filePath : List Nat) (fileWindowMap : TrackMap) :
    TrackMap × Bool :=
  if env.launchOk then
    let r := pollLoop env 0
    (if r.1 ≠ 0 then
       mapInsert fileWindowMap filePath (GetFingerprint (env.wt r.2) r.1)
     else fileWindowMap,
     false)
  else (fileWindowMap, true)

/-! ## Save / Load of the tracking mapping (FileUtils.cpp) -/

/-- Whitespace for `std::wistringstream` extraction (space, tab, newlines). -/
def isWSpace (c : Nat) : Bool :=
  c = 32 || c = 9 || c = 10 || c = 13 || c = 11 || c = 12

/-- ASCII decimal digit codes. -/
def isDigitC (c : Nat) : Bool := 48 ≤ c && c ≤ 57

/-- Value of a most-significant-first run of digit codes. -/
def natOfDigits (ds : List Nat) : Nat := ds.foldl (fun a c => a * 10 + (c - 48)) 0

/-- Decimal printing worker: emit the digits of `n` most significant first.
    The first argument is fuel bounding the recursion depth (any fuel at
    least `n` is enough, since `n / 10 < n` for positive `n`). -/
def repNatAux : Nat → Nat → List Nat
  | _, 0 => []
  | 0, _ + 1 => []
  | fuel + 1, n + 1 => repNatAux fuel ((n + 1) / 10) ++ [(n + 1) % 10 + 48]

/-- Decimal digit codes of `n`, most significant first, as `operator<<`
    prints a `DWORD` (`0` prints as "0"). -/
def repNat (n : Nat) : List Nat :=
  if n = 0 then [48] else repNatAux n n

/-- Model of `SaveTrackingMapping` (FileUtils.cpp): one line per entry,
    `path '\t' processId` (the line terminator is the line split itself). -/
def SaveTrackingMapping (fileWindowMap : TrackMap) : List (List Nat) :=
  fileWindowMap.map (fun e => e.1 ++ 9 :: repNat e.2.processId)

/-- Extraction `iss >> filePath >> processId` on one line: skip whitespace, take the
    first whitespace-delimited token as the path, skip whitespace, read a
    run of decimal digits as the process id; fail when either is empty. -/
def parseLine (line : List Nat) : Option (List Nat × Nat) :=
  let r0 := line.dropWhile isWSpace
  let tok := r0.takeWhile (fun c => !isWSpace c)
  let r1 := (r0.dropWhile (fun c => !isWSpace c)).dropWhile isWSpace
  let ds := r1.takeWhile isDigitC
  if tok.isEmpty then none
  else if ds.isEmpty then none
  else some (tok, natOfDigits ds)

/-- Computation of `filePath.rfind('\\')` then `substr(pos + 1)`: the part after the last
    backslash (code 92), or `none` when the path has no backslash. -/
def afterLastSep : List Nat → Option (List Nat)
  | [] => none
  | c :: rest =>
      match afterLastSep rest with
      | some s => some s
      | none => if c = 92 then some rest else none

/-- One iteration of `LoadTrackingMapping`'s line loop: parse the line,
    look for a visible window of the recorded process, fall back to the
    title-substring search on the path's base name, and insert a fresh
    fingerprint when either lookup found a window. -/
def loadLine (w : World) (fileWindowMap : TrackMap) (line : List Nat) : TrackMap :=
  match parseLine line with
  | none => fileWindowMap
  | some (filePath, processId) =>
      let h0 := GetMainWindowHandle w processId
      let hwndTracked :=
        if h0 = 0 then
          match afterLastSep filePath with
          | some fileName => GetWindowHandleByFileName w fileName
          | none => 0
        else h0
      if hwndTracked ≠ 0 then
        mapInsert fileWindowMap filePath (GetFingerprint w hwndTracked)
      else fileWindowMap

/-- Model of `LoadTrackingMapping` (FileUtils.cpp): process the persisted lines in
    order against the current world. -/
def LoadTrackingMapping (w : World) (lines : List (List Nat)) (fileWindowMap : TrackMap) :
    TrackMap :=
  lines.foldl (loadLine w) fileWindowMap

/-! ## The handlers' resolution logic (WindowMonitor.h)

The WM_TIMER status pass, the NM_DBLCLK handler and the CLI return handler
all resolve a file path against the tracking map with the same code shape:
look the path up; when the stored handle is a live window, capture a fresh
fingerprint of it, check the stable attributes, and overwrite the stored
record only when they differ; when the entry is missing or its handle is
dead, fall back to the title-substring search on the file name.  Each step
is logged as a `ResAct` so that claims about which OS queries run on which
handle are statable. -/

/-- One observable action of a resolution pass. -/
inductive ResAct where
  /-- Event: `GetFingerprint` was called on this handle. -/
  | captureFp (h : Nat) : ResAct
  /-- Event: `CompareStableAttributes` was checked against this handle's fresh
      fingerprint. -/
  | stableCheck (h : Nat) : ResAct
  /-- Event: `GetWindowHandleByFileName` was called with this file name. -/
  | titleSearch (name : List Nat) : ResAct
  /-- Event: `LaunchFile` was called for this path. -/
  | launchCall (path : List Nat) : ResAct
deriving DecidableEq, Repr

/-- The WM_TIMER per-row status resolution (WindowMonitor.h, File Tracking
    pass): returns the updated map, the `hwndFound` used for the status
    column, and the trace of actions. -/
def timerResolve (w : World) (m : TrackMap) (filePath fileName : List Nat) :
    TrackMap × Nat × List ResAct :=
  match mapFind m filePath with
  | some tw =>
      if IsWindow w tw.hwnd then
        let currentFp := GetFingerprint w tw.hwnd
        if CompareStableAttributes tw currentFp then
          (m, tw.hwnd, [ResAct.captureFp tw.hwnd, ResAct.stableCheck tw.hwnd])
        else
          (mapInsert m filePath currentFp, currentFp.hwnd,
           [ResAct.captureFp tw.hwnd, ResAct.stableCheck tw.hwnd])
      else
        (m, GetWindowHandleByFileName w fileName, [ResAct.titleSearch fileName])
  | none =>
      (m, GetWindowHandleByFileName w fileName, [ResAct.titleSearch fileName])

/-- The NM_DBLCLK / CLI-return activation resolution (WindowMonitor.h):
    same re-validation as the timer pass; on a missing or dead entry, title
    search, then either record the found window's fingerprint or launch the
    file.  Returns the updated map and the trace of actions. -/
def activateResolve (w : World) (env : LaunchEnv) (m : TrackMap)
    (filePath fileName : List Nat) : TrackMap × List ResAct :=
  let fallback : TrackMap × List ResAct :=
    let hwndFound := GetWindowHandleByFileName w fileName
    if hwndFound ≠ 0 then
      (mapInsert m filePath (GetFingerprint w hwndFound),
       [ResAct.titleSearch fileName, ResAct.captureFp hwndFound])
    else
      ((LaunchFile env filePath m).1,
       [ResAct.titleSearch fileName, ResAct.launchCall filePath])
  match mapFind m filePath with
  | some tw =>
      if IsWindow w tw.hwnd then
        let currentFp := GetFingerprint w tw.hwnd
        if CompareStableAttributes tw currentFp then
          (m, [ResAct.captureFp tw.hwnd, ResAct.stableCheck tw.hwnd])
        else
          (mapInsert m filePath currentFp,
           [ResAct.captureFp tw.hwnd, ResAct.stableCheck tw.hwnd])
      else fallback
  | none => fallback

/-! ## Auxiliary definitions for the statements -/

/-- Modelled from the spec: the first enumerated window whose lower-cased
    title contains the lower-cased, `.lnk`-stripped file name as a substring;
    an empty stripped name matches no window.  Stated separately from
    `GetWindowHandleByFileName` so the two can be compared. -/
def firstWindowByStrippedName (w : World) (fileName : List Nat) : Nat :=
  let key := StripLnkExtension (lowerStr fileName)
  if key.isEmpty then 0
  else
    match w.windows.find? (fun e => containsSub (lowerStr e.2.title) key) with
    | some e => e.1
    | none => 0

/-- Every record stored in the tracking map has a zero failure counter. -/
def allZeroFail (m : TrackMap) : Prop := ∀ e ∈ m, e.2.failCount = 0

/-- Concrete world: one visible window, handle 1, process 10, class "c",
    title "new". -/
def wTest : World :=
  ⟨[(1, ⟨10, [110, 101, 119], ⟨0, 0, 0, 0⟩, [99], true⟩)], 0⟩

/-- Concrete stored fingerprint: process 10, handle 1, class "c",
    title "old" — stable attributes match `wTest`'s window, title differs. -/
def twTest : TrackedWindow :=
  { processId := 10, hwnd := 1, rect := ⟨0, 0, 0, 0⟩, className := [99],
    windowTitle := [111, 108, 100], failCount := 0, launchTime := 0 }

/-- Same stable attributes as `twTest`, different title. -/
def twTestB : TrackedWindow := { twTest with windowTitle := [120] }

/-- The empty world: no windows at all. -/
def wEmpty : World := ⟨[], 0⟩

/-- A launch environment whose shell-open call fails. -/
def envFail : LaunchEnv := ⟨false, 0, fun t => ⟨[], t⟩⟩

/-- The window that `arrEnv` makes appear: process 7, visible, title "n". -/
def wdArr : WinData := ⟨7, [110], ⟨0, 0, 0, 0⟩, [99], true⟩

/-- Launch environment in which the launched process's single window
    (handle `h`, data `d`) first exists `arr` milliseconds after launch. -/
def arrivalEnv (arr h pid : Nat) (d : WinData) : LaunchEnv :=
  ⟨true, pid, fun t => if arr ≤ t then ⟨[(h, d)], t⟩ else ⟨[], t⟩⟩

/-- A persisted line `c:\x<TAB>7`. -/
def lineTest : List Nat := [99, 58, 92, 120, 9, 55]

/-! ## Helper lemmas -/

theorem GetFingerprint_hwnd (w : World) (h : Nat) : (GetFingerprint w h).hwnd = h := by
  unfold GetFingerprint
  cases winLookup w.windows h <;> rfl

theorem GetFingerprint_failCount (w : World) (h : Nat) :
    (GetFingerprint w h).failCount = 0 := by
  unfold GetFingerprint
  cases winLookup w.windows h <;> rfl

theorem mapFind_mapInsert_self (m : TrackMap) (k : List Nat) (v : TrackedWindow) :
    mapFind (mapInsert m k v) k = some v := by
  induction m with
  | nil => simp [mapInsert, mapFind]
  | cons e rest ih =>
      obtain ⟨k', v'⟩ := e
      by_cases h : k' = k
      · simp [mapInsert, mapFind, h]
      · simp [mapInsert, mapFind, h, ih]

theorem allZeroFail_mapInsert {m : TrackMap} {k : List Nat} {v : TrackedWindow}
    (hm : allZeroFail m) (hv : v.failCount = 0) : allZeroFail (mapInsert m k v) := by
  induction m with
  | nil => intro e he; simp [mapInsert] at he; simp [he, hv]
  | cons p rest ih =>
      obtain ⟨k', v'⟩ := p
      intro e he
      by_cases h : k' = k
      · simp [mapInsert, h] at he
        rcases he with he | he
        · simp [he, hv]
        · exact hm e (by simp [he])
      · simp [mapInsert, h] at he
        rcases he with he | he
        · exact hm e (by simp [he])
        · exact ih (fun x hx => hm x (by simp [hx])) e he

/-! ## Claims -/

/-- C4: `CompareFingerprints` returns true iff process id, class name, all
    four rectangle edges, and the case-insensitively compared titles all
    match. -/
theorem CompareFingerprints_spec (s c : TrackedWindow) :
    CompareFingerprints s c = true ↔
      s.processId = c.processId ∧ s.className = c.className ∧
      s.rect.left = c.rect.left ∧ s.rect.top = c.rect.top ∧
      s.rect.right = c.rect.right ∧ s.rect.bottom = c.rect.bottom ∧
      lowerStr s.windowTitle = lowerStr c.windowTitle := by
  unfold CompareFingerprints
  split_ifs with h1 h2 h3 <;> simp_all <;> tauto

/-- C5: strict fingerprint equality implies stable-attribute equality, and
    the converse fails: `twTest` / `twTestB` share process id and class name
    but differ in title, so `CompareStableAttributes` holds while
    `CompareFingerprints` does not. -/
theorem fingerprints_stronger_than_stable :
    (∀ s c, CompareFingerprints s c = true → CompareStableAttributes s c = true) ∧
    CompareStableAttributes twTest twTestB = true ∧
    CompareFingerprints twTest twTestB = false := by
  refine ⟨fun s c h => ?_, by decide, by decide⟩
  unfold CompareFingerprints at h
  split_ifs at h with h1 h2 h3
  simp only [not_not] at h1 h2
  simp [CompareStableAttributes, h1, h2]

/-- Witness for C5: at a concrete strictly-equal pair, the implication
    yields stable-attribute equality. -/
theorem fingerprints_stronger_than_stable_witness :
    CompareFingerprints twTest twTest = true ∧
    CompareStableAttributes twTest twTest = true :=
  ⟨by decide, fingerprints_stronger_than_stable.1 twTest twTest (by decide)⟩

/-- C6: the title-substring lookup lower-cases the file name, strips a
    trailing `.lnk`, and returns the first enumerated window whose
    lower-cased title contains the stripped name, no window matching when
    the stripped name is empty. -/
theorem GetWindowHandleByFileName_spec (w : World) (fileName : List Nat) :
    GetWindowHandleByFileName w fileName = firstWindowByStrippedName w fileName := by
  unfold GetWindowHandleByFileName firstWindowByStrippedName
  by_cases hk : (StripLnkExtension (lowerStr fileName)).isEmpty
  · have hf : w.windows.find? (fun e => fileMatchesTitle fileName e.2.title) = none := by
      rw [List.find?_eq_none]
      intro e _
      simp [fileMatchesTitle, hk]
    simp [hf, hk]
  · have hpred : (fun (e : Nat × WinData) => fileMatchesTitle fileName e.2.title)
        = fun e => containsSub (lowerStr e.2.title)
            (StripLnkExtension (lowerStr fileName)) := by
      funext e
      unfold fileMatchesTitle
      by_cases ht : e.2.title.length > 0
      · simp [ht, hk]
      · have htn : e.2.title = [] := List.length_eq_zero.mp (by omega)
        have hkne : StripLnkExtension (List.map towlowerN fileName) ≠ [] := by
          simpa [List.isEmpty_iff, lowerStr] using hk
        simp [ht, htn, containsSub, lowerStr, List.infix_nil, hkne]
    rw [hpred]
    simp [hk]

/-- C8: when the shell-open call fails, `LaunchFile` reports the error and
    returns the tracking map unchanged. -/
theorem LaunchFile_failure_no_mutation (env : LaunchEnv) (filePath : List Nat)
    (m : TrackMap) (h : env.launchOk = false) :
    LaunchFile env filePath m = (m, true) := by
  simp [LaunchFile, h]

/-- Witness for C8 at a concrete failing environment. -/
theorem LaunchFile_failure_no_mutation_witness :
    envFail.launchOk = false ∧ LaunchFile envFail [97] [] = ([], true) :=
  ⟨rfl, LaunchFile_failure_no_mutation envFail [97] [] rfl⟩

theorem allZeroFail_LaunchFile {m : TrackMap} (env : LaunchEnv) (filePath : List Nat)
    (hm : allZeroFail m) : allZeroFail (LaunchFile env filePath m).1 := by
  by_cases h1 : env.launchOk
  · by_cases h2 : (pollLoop env 0).1 = 0
    · simpa [LaunchFile, h1, h2] using hm
    · simpa [LaunchFile, h1, h2] using
        allZeroFail_mapInsert hm
          (GetFingerprint_failCount (env.wt (pollLoop env 0).2) (pollLoop env 0).1)
  · simpa [LaunchFile, h1] using hm

theorem allZeroFail_loadLine {m : TrackMap} (w : World) (line : List Nat)
    (hm : allZeroFail m) : allZeroFail (loadLine w m line) := by
  unfold loadLine
  cases parseLine line with
  | none => exact hm
  | some p =>
      simp only
      split_ifs <;>
        first
          | exact hm
          | exact allZeroFail_mapInsert hm (GetFingerprint_failCount _ _)

theorem allZeroFail_Load {w : World} :
    ∀ (lines : List (List Nat)) (m : TrackMap), allZeroFail m →
      allZeroFail (LoadTrackingMapping w lines m)
  | [], _, hm => hm
  | line :: rest, m, hm =>
      allZeroFail_Load rest (loadLine w m line) (allZeroFail_loadLine w line hm)

theorem allZeroFail_timerResolve {m : TrackMap} (w : World) (filePath fileName : List Nat)
    (hm : allZeroFail m) : allZeroFail (timerResolve w m filePath fileName).1 := by
  unfold timerResolve
  cases mapFind m filePath with
  | none => exact hm
  | some tw =>
      simp only
      split_ifs with h1 h2
      · exact hm
      · exact allZeroFail_mapInsert hm (GetFingerprint_failCount _ _)
      · exact hm

theorem allZeroFail_activateResolve {m : TrackMap} (w : World) (env : LaunchEnv)
    (filePath fileName : List Nat) (hm : allZeroFail m) :
    allZeroFail (activateResolve w env m filePath fileName).1 := by
  unfold activateResolve
  cases mapFind m filePath with
  | none =>
      simp only
      split_ifs with h
      · exact allZeroFail_mapInsert hm (GetFingerprint_failCount _ _)
      · exact allZeroFail_LaunchFile env filePath hm
  | some tw =>
      simp only
      split_ifs with h1 h2 h3
      · exact hm
      · exact allZeroFail_mapInsert hm (GetFingerprint_failCount _ _)
      · exact allZeroFail_mapInsert hm (GetFingerprint_failCount _ _)
      · exact allZeroFail_LaunchFile env filePath hm

/-- C10: every fingerprint is captured with a zero failure counter, and
    every operation on the tracking store — launch, load, timer
    re-validation, activation — preserves the all-zero `failCount`
    invariant. -/
theorem failCount_always_zero :
    (∀ w h, (GetFingerprint w h).failCount = 0) ∧
    (∀ env filePath m, allZeroFail m → allZeroFail (LaunchFile env filePath m).1) ∧
    (∀ w lines m, allZeroFail m → allZeroFail (LoadTrackingMapping w lines m)) ∧
    (∀ w m filePath fileName, allZeroFail m →
      allZeroFail (timerResolve w m filePath fileName).1) ∧
    (∀ w env m filePath fileName, allZeroFail m →
      allZeroFail (activateResolve w env m filePath fileName).1) :=
  ⟨GetFingerprint_failCount,
   fun env fp m hm => allZeroFail_LaunchFile env fp hm,
   fun _ lines m hm => allZeroFail_Load lines m hm,
   fun w m fp fn hm => allZeroFail_timerResolve w fp fn hm,
   fun w env m fp fn hm => allZeroFail_activateResolve w env fp fn hm⟩

/-- Witness for C10: the invariant theorem applied to a concrete map and a
    concrete timer re-validation pass. -/
theorem failCount_always_zero_witness :
    allZeroFail (timerResolve wTest [([97], twTest)] [97] [98]).1 :=
  failCount_always_zero.2.2.2.1 wTest [([97], twTest)] [97] [98]
    (by intro e he; simp only [List.mem_singleton] at he; subst he; rfl)

/-- Counterexample to C1: in `wTest` the stored handle 1 is live, the fresh
    fingerprint agrees on process id and class name but carries the new
    title, yet the timer re-validation leaves the stored record — old title
    included — unchanged. -/
theorem revalidation_title_not_refreshed :
    IsWindow wTest twTest.hwnd = true ∧
    CompareStableAttributes twTest (GetFingerprint wTest twTest.hwnd) = true ∧
    (GetFingerprint wTest twTest.hwnd).windowTitle ≠ twTest.windowTitle ∧
    mapFind (timerResolve wTest [([97], twTest)] [97] [98]).1 [97] = some twTest ∧
    mapFind (activateResolve wTest envFail [([97], twTest)] [97] [98]).1 [97]
      = some twTest := by
  decide

/-- C1 amended: when the stored handle is live and the fresh fingerprint
    still matches on process id and class name, the stored record is left
    entirely unchanged (the fresh title is discarded); the record is
    replaced by the fresh fingerprint — whose handle equals the stored
    handle — only when the stable attributes differ. -/
theorem revalidation_record_update (w : World) (env : LaunchEnv) (m : TrackMap)
    (filePath fileName : List Nat) (tw : TrackedWindow)
    (hfind : mapFind m filePath = some tw)
    (hlive : IsWindow w tw.hwnd = true) :
    (CompareStableAttributes tw (GetFingerprint w tw.hwnd) = true →
       (timerResolve w m filePath fileName).1 = m ∧
       (activateResolve w env m filePath fileName).1 = m) ∧
    (CompareStableAttributes tw (GetFingerprint w tw.hwnd) = false →
       mapFind (timerResolve w m filePath fileName).1 filePath
         = some (GetFingerprint w tw.hwnd) ∧
       mapFind (activateResolve w env m filePath fileName).1 filePath
         = some (GetFingerprint w tw.hwnd) ∧
       (GetFingerprint w tw.hwnd).hwnd = tw.hwnd) := by
  constructor
  · intro hstable
    constructor
    · unfold timerResolve
      rw [hfind]
      simp [hlive, hstable]
    · unfold activateResolve
      rw [hfind]
      simp [hlive, hstable]
  · intro hstable
    refine ⟨?_, ?_, GetFingerprint_hwnd w tw.hwnd⟩
    · unfold timerResolve
      rw [hfind]
      simp [hlive, hstable, mapFind_mapInsert_self]
    · unfold activateResolve
      rw [hfind]
      simp [hlive, hstable, mapFind_mapInsert_self]

/-- Witness for C1 amended at the concrete live, stable-matching record. -/
theorem revalidation_record_update_witness :
    (timerResolve wTest [([97], twTest)] [97] [98]).1 = [([97], twTest)] ∧
    (activateResolve wTest envFail [([97], twTest)] [97] [98]).1 = [([97], twTest)] :=
  (revalidation_record_update wTest envFail [([97], twTest)] [97] [98] twTest
    (by decide) (by decide)).1 (by decide)

theorem pollLoop_arrival (arr h pid : Nat) (d : WinData) (hh : h ≠ 0)
    (hd : d.pid = pid) (hv : d.visible = true) :
    (pollLoop (arrivalEnv arr h pid d) 0).1 = if arr ≤ 750 then h else 0 := by
  have gm : ∀ t, GetMainWindowHandle ((arrivalEnv arr h pid d).wt t) pid
      = if arr ≤ t then h else 0 := by
    intro t
    by_cases ha : arr ≤ t <;>
      simp [arrivalEnv, ha, GetMainWindowHandle, hd, hv, List.find?]
  have hpid : (arrivalEnv arr h pid d).pid = pid := rfl
  by_cases a0 : arr ≤ 0
  · simp [pollLoop, hpid, gm, a0, hh, show arr ≤ 750 by omega]
  · by_cases a1 : arr ≤ 250
    · simp [pollLoop, hpid, gm, a0, a1, hh, show arr ≤ 750 by omega]
    · by_cases a2 : arr ≤ 500
      · simp [pollLoop, hpid, gm, a0, a1, a2, hh, show arr ≤ 750 by omega]
      · by_cases a3 : arr ≤ 750
        · simp [pollLoop, hpid, gm, a0, a1, a2, a3, hh]
        · simp [pollLoop, hpid, gm, a0, a1, a2, a3]

/-- Counterexample to C2: launching with the process's main visible window
    first available at 999 ms (it is there at the 999 ms mark, as the first
    conjunct shows), `LaunchFile` records nothing — the poll loop's lookups
    run at 0, 250, 500 and 750 ms only. -/
theorem launch_poll_999_missed :
    GetMainWindowHandle ((arrivalEnv 999 5 7 wdArr).wt 999) 7 = 5 ∧
    mapFind (LaunchFile (arrivalEnv 999 5 7 wdArr) [97] []).1 [97] = none := by
  constructor
  · decide
  · simp [LaunchFile, pollLoop, arrivalEnv, wdArr, GetMainWindowHandle, mapFind]

/-- C2 amended: with one poll every 250 ms under a 1000 ms ceiling checked
    before each lookup, the lookups run at 0, 250, 500 and 750 ms, so the
    launched process's main visible window is captured into the tracking
    map iff it first becomes available at or before 750 ms; in particular a
    window first appearing at 999 ms or at 1001 ms is not recorded. -/
theorem launch_poll_capture_iff (arr h pid : Nat) (d : WinData) (filePath : List Nat)
    (hh : h ≠ 0) (hd : d.pid = pid) (hv : d.visible = true) :
    (mapFind (LaunchFile (arrivalEnv arr h pid d) filePath []).1 filePath).isSome = true
      ↔ arr ≤ 750 := by
  have hp := pollLoop_arrival arr h pid d hh hd hv
  by_cases ha : arr ≤ 750
  · rw [if_pos ha] at hp
    simp [LaunchFile, show (arrivalEnv arr h pid d).launchOk = true from rfl, hp, hh,
      mapFind_mapInsert_self, ha]
  · rw [if_neg ha] at hp
    simp [LaunchFile, show (arrivalEnv arr h pid d).launchOk = true from rfl, hp,
      mapFind, ha]

/-- Witness for C2 amended: a window arriving at 500 ms is captured. -/
theorem launch_poll_capture_iff_witness :
    (5 : Nat) ≠ 0 ∧ wdArr.pid = 7 ∧ wdArr.visible = true ∧
    ((mapFind (LaunchFile (arrivalEnv 500 5 7 wdArr) [97] []).1 [97]).isSome = true
      ↔ 500 ≤ 750) :=
  ⟨by decide, by decide, by decide,
   launch_poll_capture_iff 500 5 7 wdArr [97] (by decide) (by decide) (by decide)⟩

theorem winLookup_isSome_of_mem {l : List (Nat × WinData)} {k : Nat} {d : WinData}
    (h : (k, d) ∈ l) : (winLookup l k).isSome = true := by
  induction l with
  | nil => simp at h
  | cons e rest ih =>
      obtain ⟨k', d'⟩ := e
      rcases List.mem_cons.mp h with he | he
      · cases he
        simp [winLookup]
      · by_cases hk : k' = k
        · simp [winLookup, hk]
        · simpa [winLookup, hk] using ih he

/-- A handle returned non-null by the title-substring search names a live
    window of the world. -/
theorem found_handle_live {w : World} {fileName : List Nat}
    (hwf : WorldWF w) (h : GetWindowHandleByFileName w fileName ≠ 0) :
    IsWindow w (GetWindowHandleByFileName w fileName) = true := by
  unfold GetWindowHandleByFileName at *
  cases hf : w.windows.find? (fun e => fileMatchesTitle fileName e.2.title) with
  | none => simp [hf] at h
  | some e =>
      have hmem : e ∈ w.windows := List.mem_of_find?_eq_some hf
      have hne : e.1 ≠ 0 := hwf e hmem
      have : (winLookup w.windows e.1).isSome = true :=
        winLookup_isSome_of_mem (k := e.1) (d := e.2) (by simpa using hmem)
      simp [hf, IsWindow, hne, this]

/-- C7: when the tracked entry's stored handle is no longer a live window,
    neither a fingerprint capture nor a stable-attribute check runs on the
    dead handle, in the timer pass or in the activation pass; both fall
    through to the title-substring search on the file name. -/
theorem dead_handle_no_revalidation (w : World) (env : LaunchEnv) (m : TrackMap)
    (filePath fileName : List Nat) (tw : TrackedWindow)
    (hwf : WorldWF w)
    (hfind : mapFind m filePath = some tw)
    (hdead : IsWindow w tw.hwnd = false) :
    ((timerResolve w m filePath fileName).2.2 = [ResAct.titleSearch fileName] ∧
     (timerResolve w m filePath fileName).2.1 = GetWindowHandleByFileName w fileName) ∧
    (ResAct.captureFp tw.hwnd ∉ (activateResolve w env m filePath fileName).2 ∧
     ResAct.stableCheck tw.hwnd ∉ (activateResolve w env m filePath fileName).2 ∧
     ResAct.titleSearch fileName ∈ (activateResolve w env m filePath fileName).2) := by
  have hdead' : ¬ IsWindow w tw.hwnd = true := by simp [hdead]
  constructor
  · unfold timerResolve
    rw [hfind]
    simp [hdead']
  · unfold activateResolve
    rw [hfind]
    by_cases hfound : GetWindowHandleByFileName w fileName = 0
    · simp [hdead', hfound]
    · have hlive := found_handle_live hwf hfound
      have hne : GetWindowHandleByFileName w fileName ≠ tw.hwnd := by
        intro he
        rw [he] at hlive
        rw [hlive] at hdead
        simp at hdead
      simp [hdead', hfound, hne, Ne.symm hne]

/-- Witness for C7: in the empty world the stored handle 1 is dead and both
    passes fall through to the title search. -/
theorem dead_handle_no_revalidation_witness :
    ((timerResolve wEmpty [([97], twTest)] [97] [98]).2.2 = [ResAct.titleSearch [98]] ∧
     (timerResolve wEmpty [([97], twTest)] [97] [98]).2.1
       = GetWindowHandleByFileName wEmpty [98]) ∧
    (ResAct.captureFp twTest.hwnd ∉ (activateResolve wEmpty envFail [([97], twTest)] [97] [98]).2 ∧
     ResAct.stableCheck twTest.hwnd ∉ (activateResolve wEmpty envFail [([97], twTest)] [97] [98]).2 ∧
     ResAct.titleSearch [98] ∈ (activateResolve wEmpty envFail [([97], twTest)] [97] [98]).2) :=
  dead_handle_no_revalidation wEmpty envFail [([97], twTest)] [97] [98] twTest
    (by intro e he; simp [wEmpty] at he) (by decide) (by decide)

/-- C9: a persisted record whose process owns no visible window and whose
    base-name title search finds no window is silently dropped: loading
    that record into the empty map leaves the map empty, with no partial
    entry. -/
theorem load_drops_unresolvable_record (w : World) (line filePath : List Nat) (pid : Nat)
    (hparse : parseLine line = some (filePath, pid))
    (hproc : GetMainWindowHandle w pid = 0)
    (hname : ∀ name, afterLastSep filePath = some name →
      GetWindowHandleByFileName w name = 0) :
    LoadTrackingMapping w [line] [] = [] := by
  simp only [LoadTrackingMapping, List.foldl, loadLine, hparse]
  cases ha : afterLastSep filePath with
  | none => simp [hproc, ha]
  | some name => simp [hproc, ha, hname name ha]

/-- Witness for C9: the record `c:\x<TAB>7` against the empty world. -/
theorem load_drops_unresolvable_record_witness :
    parseLine lineTest = some ([99, 58, 92, 120], 7) ∧
    GetMainWindowHandle wEmpty 7 = 0 ∧
    LoadTrackingMapping wEmpty [lineTest] [] = [] :=
  ⟨by decide, by decide,
   load_drops_unresolvable_record wEmpty lineTest [99, 58, 92, 120] 7
     (by decide) (by decide) (fun _ _ => rfl)⟩

theorem natOfDigits_append_digit (xs : List Nat) (c : Nat) :
    natOfDigits (xs ++ [c]) = natOfDigits xs * 10 + (c - 48) := by
  simp [natOfDigits, List.foldl_append]

theorem natOfDigits_repNatAux :
    ∀ (fuel n : Nat), n ≤ fuel → natOfDigits (repNatAux fuel n) = n := by
  intro fuel
  induction fuel with
  | zero =>
      intro n hn
      have : n = 0 := by omega
      subst this
      simp [repNatAux, natOfDigits]
  | succ f ih =>
      intro n hn
      match n with
      | 0 => simp [repNatAux, natOfDigits]
      | m + 1 =>
          have hdiv : (m + 1) / 10 ≤ f := by
            have h1 : (m + 1) / 10 < m + 1 := Nat.div_lt_self (by omega) (by omega)
            omega
          rw [show repNatAux (f + 1) (m + 1)
              = repNatAux f ((m + 1) / 10) ++ [(m + 1) % 10 + 48] from rfl]
          rw [natOfDigits_append_digit, ih _ hdiv]
          have := Nat.div_add_mod (m + 1) 10
          omega

theorem repNatAux_digits :
    ∀ (fuel n : Nat), ∀ c ∈ repNatAux fuel n, isDigitC c = true := by
  intro fuel
  induction fuel with
  | zero => intro n c hc; cases n <;> simp [repNatAux] at hc
  | succ f ih =>
      intro n c hc
      match n with
      | 0 => simp [repNatAux] at hc
      | m + 1 =>
          rw [show repNatAux (f + 1) (m + 1)
              = repNatAux f ((m + 1) / 10) ++ [(m + 1) % 10 + 48] from rfl] at hc
          rcases List.mem_append.mp hc with h | h
          · exact ih _ c h
          · simp at h
            subst h
            have : (m + 1) % 10 < 10 := Nat.mod_lt _ (by omega)
            simp [isDigitC]
            omega

theorem repNat_spec (n : Nat) :
    natOfDigits (repNat n) = n ∧ repNat n ≠ [] ∧ ∀ c ∈ repNat n, isDigitC c = true := by
  by_cases h : n = 0
  · subst h
    refine ⟨by decide, by decide, by decide⟩
  · have hrw : repNat n = repNatAux n n := by simp [repNat, h]
    rw [hrw]
    refine ⟨natOfDigits_repNatAux n n le_rfl, ?_, repNatAux_digits n n⟩
    match n, h with
    | m + 1, _ =>
        rw [show repNatAux (m + 1) (m + 1)
            = repNatAux m ((m + 1) / 10) ++ [(m + 1) % 10 + 48] from rfl]
        simp

theorem digit_not_ws {c : Nat} (h : isDigitC c = true) : isWSpace c = false := by
  simp [isDigitC] at h
  simp [isWSpace]
  omega

theorem takeWhile_append_stop (p : Nat → Bool) :
    ∀ (k : List Nat) (x : Nat) (r : List Nat), (∀ c ∈ k, p c = true) → p x = false →
      (k ++ x :: r).takeWhile p = k := by
  intro k
  induction k with
  | nil => intro x r _ hx; simp [List.takeWhile_cons, hx]
  | cons a k ih =>
      intro x r hk hx
      have ha : p a = true := hk a (by simp)
      simp [List.takeWhile_cons, ha, ih x r (fun c hc => hk c (by simp [hc])) hx]

theorem dropWhile_append_stop (p : Nat → Bool) :
    ∀ (k : List Nat) (x : Nat) (r : List Nat), (∀ c ∈ k, p c = true) → p x = false →
      (k ++ x :: r).dropWhile p = x :: r := by
  intro k
  induction k with
  | nil => intro x r _ hx; simp [List.dropWhile_cons, hx]
  | cons a k ih =>
      intro x r hk hx
      have ha : p a = true := hk a (by simp)
      simp [List.dropWhile_cons, ha, ih x r (fun c hc => hk c (by simp [hc])) hx]

theorem takeWhile_all (p : Nat → Bool) :
    ∀ l : List Nat, (∀ c ∈ l, p c = true) → l.takeWhile p = l := by
  intro l
  induction l with
  | nil => intro; rfl
  | cons a l ih =>
      intro h
      simp [List.takeWhile_cons, h a (by simp), ih (fun c hc => h c (by simp [hc]))]

theorem dropWhile_id (p : Nat → Bool) (l : List Nat)
    (h : ∀ c ∈ l, p c = false) : l.dropWhile p = l := by
  cases l with
  | nil => rfl
  | cons a l => simp [List.dropWhile_cons, h a (by simp)]

/-- Parsing a saved line recovers the key and the process id, provided the
    key is non-empty and whitespace-free. -/
theorem parseLine_saved (k : List Nat) (pid : Nat) (hk : k ≠ [])
    (hkw : ∀ c ∈ k, isWSpace c = false) :
    parseLine (k ++ 9 :: repNat pid) = some (k, pid) := by
  obtain ⟨hval, hne, hdig⟩ := repNat_spec pid
  obtain ⟨a, k', rfl⟩ : ∃ a k', k = a :: k' := by
    cases k with
    | nil => exact absurd rfl hk
    | cons a k' => exact ⟨a, k', rfl⟩
  have hnw : ∀ c ∈ a :: k', (fun c => !isWSpace c) c = true := by
    intro c hc
    simp [hkw c hc]
  have e1 : ((a :: k') ++ 9 :: repNat pid).dropWhile isWSpace
      = (a :: k') ++ 9 :: repNat pid := by
    simp [List.dropWhile_cons, hkw a (by simp)]
  have e2 : ((a :: k') ++ 9 :: repNat pid).takeWhile (fun c => !isWSpace c) = a :: k' :=
    takeWhile_append_stop _ (a :: k') 9 (repNat pid) hnw (by simp [isWSpace])
  have e3 : ((a :: k') ++ 9 :: repNat pid).dropWhile (fun c => !isWSpace c)
      = 9 :: repNat pid :=
    dropWhile_append_stop _ (a :: k') 9 (repNat pid) hnw (by simp [isWSpace])
  have e4 : (9 :: repNat pid).dropWhile isWSpace = repNat pid := by
    simp only [List.dropWhile_cons, show isWSpace 9 = true from rfl, if_true]
    exact dropWhile_id _ _ (fun c hc => digit_not_ws (hdig c hc))
  have e5 : (repNat pid).takeWhile isDigitC = repNat pid :=
    takeWhile_all _ _ hdig
  simp only [parseLine, e1, e2, e3, e4, e5]
  simp [hne, hval]

theorem mapInsert_fresh :
    ∀ (m : TrackMap) (k : List Nat) (v : TrackedWindow),
      k ∉ m.map Prod.fst → mapInsert m k v = m ++ [(k, v)] := by
  intro m k v h
  induction m with
  | nil => rfl
  | cons e rest ih =>
      obtain ⟨k', v'⟩ := e
      simp only [List.map_cons, List.mem_cons] at h
      push_neg at h
      simp [mapInsert, Ne.symm h.1, ih h.2]

theorem load_save_keys (w : World) :
    ∀ (m acc : TrackMap),
      (∀ e ∈ m, e.1 ≠ [] ∧ (∀ c ∈ e.1, isWSpace c = false) ∧
        GetMainWindowHandle w e.2.processId ≠ 0) →
      (m.map Prod.fst).Nodup →
      (∀ e ∈ m, e.1 ∉ acc.map Prod.fst) →
      (LoadTrackingMapping w (SaveTrackingMapping m) acc).map Prod.fst
        = acc.map Prod.fst ++ m.map Prod.fst := by
  intro m
  induction m with
  | nil => intro acc _ _ _; simp [LoadTrackingMapping, SaveTrackingMapping]
  | cons e rest ih =>
      intro acc hprops hnodup hfresh
      obtain ⟨k, tw⟩ := e
      obtain ⟨hk, hkw, hlive⟩ := hprops (k, tw) (by simp)
      have hline : parseLine (k ++ 9 :: repNat tw.processId) = some (k, tw.processId) :=
        parseLine_saved k tw.processId hk hkw
      have hstep : LoadTrackingMapping w (SaveTrackingMapping ((k, tw) :: rest)) acc
          = LoadTrackingMapping w (SaveTrackingMapping rest)
              (mapInsert acc k (GetFingerprint w (GetMainWindowHandle w tw.processId))) := by
        rw [show SaveTrackingMapping ((k, tw) :: rest)
            = (k ++ 9 :: repNat tw.processId) :: SaveTrackingMapping rest from rfl]
        simp [LoadTrackingMapping, loadLine, hline, hlive]
      have hacc' :
          (mapInsert acc k (GetFingerprint w (GetMainWindowHandle w tw.processId))).map
            Prod.fst = acc.map Prod.fst ++ [k] := by
        rw [mapInsert_fresh _ _ _ (hfresh (k, tw) (by simp))]
        simp
      have hnodup' : (rest.map Prod.fst).Nodup := by
        simp only [List.map_cons, List.nodup_cons] at hnodup
        exact hnodup.2
      have hknotin : k ∉ rest.map Prod.fst := by
        simp only [List.map_cons, List.nodup_cons] at hnodup
        exact hnodup.1
      rw [hstep, ih _ (fun e he => hprops e (by simp [he])) hnodup' ?_]
      · rw [hacc']
        simp
      · intro e he
        rw [hacc']
        simp only [List.mem_append, List.mem_singleton]
        push_neg
        refine ⟨hfresh e (by simp [he]), ?_⟩
        intro hek
        exact hknotin (hek ▸ List.mem_map_of_mem Prod.fst he)

/-- Counterexample to C3: a tracking map whose single key contains a space
    (`"a b"`), against a world in which the tracked process still owns a
    visible window — after save and load the key set is empty, not
    preserved: the loader tokenizes on whitespace, so the path splits and
    the numeric parse fails. -/
theorem roundtrip_space_key_counterexample :
    GetMainWindowHandle wTest twTest.processId ≠ 0 ∧
    (LoadTrackingMapping wTest (SaveTrackingMapping [([97, 32, 98], twTest)]) []).map
        Prod.fst
      ≠ [([97, 32, 98], twTest)].map Prod.fst := by
  decide

/-- C3 amended: for a tracking map with distinct, non-empty,
    whitespace-free keys, serializing and reloading against a world where
    every tracked process still owns a visible window reproduces exactly
    the original key set (volatile fields are recaptured). -/
theorem save_load_roundtrip_keys (w : World) (m : TrackMap)
    (hnodup : (m.map Prod.fst).Nodup)
    (hprops : ∀ e ∈ m, e.1 ≠ [] ∧ (∀ c ∈ e.1, isWSpace c = false) ∧
      GetMainWindowHandle w e.2.processId ≠ 0) :
    (LoadTrackingMapping w (SaveTrackingMapping m) []).map Prod.fst
      = m.map Prod.fst := by
  simpa using load_save_keys w m [] hprops hnodup (by simp)

/-- Witness for C3 amended: one whitespace-free key round-trips. -/
theorem save_load_roundtrip_keys_witness :
    (LoadTrackingMapping wTest (SaveTrackingMapping [([97], twTest)]) []).map Prod.fst
      = [([97], twTest)].map Prod.fst :=
  save_load_roundtrip_keys wTest [([97], twTest)] (by simp)
    (by
      intro e he
      simp only [List.mem_singleton] at he
      subst he
      refine ⟨by simp, ?_, by decide⟩
      intro c hc
      simp only [List.mem_singleton] at hc
      subst hc
      decide)

end MYexplorer
